import Mathlib

/-!
Verification of the Reddit API client core (session, request dispatch,
write-path safety guards, identifier normalization, comment-tree parsing).

The definitions below are a shallow embedding of the TypeScript class
`RedditClient` (src/client/reddit-client.ts).  Pure string manipulation is
embedded as Lean functions on `String`; the stateful parts (token session,
write guard) are embedded as explicit state-passing functions that also
return a trace of observable effects (suspensions and network calls).
Character classes from the source regexes are embedded numerically over
Unicode code points (`Char.toNat`).
-/

namespace RedditClient

/-! ### Path-segment sanitizer

Source:
```
const SAFE_PATH_SEGMENT = /^[\w][\w.-]{0,99}$/
function sanitizePathSegment(value: string, label: string): string {
  if (!SAFE_PATH_SEGMENT.test(value)) {
    throw new Error(`Invalid ${label}: contains disallowed characters`)
  }
  return encodeURIComponent(value)
}
```
-/

/-- JavaScript regex class `\w` = `[A-Za-z0-9_]` (codes 65-90, 97-122, 48-57, 95). -/
def wordChar (c : Char) : Bool :=
  (65 ≤ c.toNat && c.toNat ≤ 90) || (97 ≤ c.toNat && c.toNat ≤ 122) ||
    (48 ≤ c.toNat && c.toNat ≤ 57) || c.toNat == 95

/-- Regex class `[\w.-]` ('.' = 46, '-' = 45). -/
def wordDotDash (c : Char) : Bool :=
  wordChar c || c.toNat == 46 || c.toNat == 45

/-- `SAFE_PATH_SEGMENT.test value`: the regex `^[\w][\w.-]{0,99}$` matches iff the
string is nonempty, its first character is a word character and the remaining
at most 99 characters are in `[\w.-]`. -/
def safePathSegmentMatch (value : String) : Bool :=
  match value.data with
  | [] => false
  | c :: rest => wordChar c && rest.all wordDotDash && decide (rest.length ≤ 99)

/-- Characters `encodeURIComponent` leaves unescaped:
`A-Z a-z 0-9 - _ . ! ~ * ' ( )` (codes 45, 95, 46, 33, 126, 42, 39, 40, 41). -/
def uriUnescaped (c : Char) : Bool :=
  (65 ≤ c.toNat && c.toNat ≤ 90) || (97 ≤ c.toNat && c.toNat ≤ 122) ||
    (48 ≤ c.toNat && c.toNat ≤ 57) ||
    c.toNat == 45 || c.toNat == 95 || c.toNat == 46 || c.toNat == 33 ||
    c.toNat == 126 || c.toNat == 42 || c.toNat == 39 || c.toNat == 40 || c.toNat == 41

/-- Uppercase hexadecimal digit for a value `< 16`. -/
def hexDigit (n : Nat) : Char :=
  if n < 10 then Char.ofNat (48 + n) else Char.ofNat (55 + n)

/-- Percent-encoding of one byte, e.g. `0x2f ↦ "%2F"`. -/
def percentByte (b : UInt8) : String :=
  "%" ++ String.singleton (hexDigit (b.toNat / 16)) ++ String.singleton (hexDigit (b.toNat % 16))

/-- Percent-encoding of one character: unescaped characters stand for themselves,
all others are encoded as the percent-escapes of their UTF-8 bytes. -/
def encodeChar (c : Char) : String :=
  if uriUnescaped c then String.singleton c
  else ((String.singleton c).toUTF8.toList.map percentByte).foldl (· ++ ·) ""

/-- JavaScript `encodeURIComponent`, character by character. -/
def encodeURIComponent (s : String) : String :=
  go s.data
where
  go : List Char → String
  | [] => ""
  | c :: cs => encodeChar c ++ go cs

/-- `sanitizePathSegment`: throws unless the allow-list regex matches, otherwise
returns the percent-encoded value. -/
def sanitizePathSegment (value label : String) : Except String String :=
  if !safePathSegmentMatch value then
    .error ("Invalid " ++ label ++ ": contains disallowed characters")
  else
    .ok (encodeURIComponent value)

/-- `s` contains character `c`. -/
def containsChar (s : String) (c : Char) : Bool :=
  s.data.contains c

/-- `s` contains `sub` as a contiguous substring. -/
def containsSub (sub s : String) : Bool :=
  (List.range (s.data.length + 1)).any fun i => List.isPrefixOf sub.data (s.data.drop i)

/-- ASCII/Latin-1 control character (C0 0-31, DEL 127, C1 128-159). -/
def controlChar (c : Char) : Bool :=
  c.toNat < 32 || (127 ≤ c.toNat && c.toNat ≤ 159)

/-! ### Thing-id normalization

The write paths normalize a caller-supplied id to a fullname before the POST.
For the post-kind operations (`replyToPost`, `deletePost`, `editPost`, `vote`):
```
const fullThingId = thingId.startsWith("t3_") || thingId.startsWith("t1_") ? thingId : `t3_${thingId}`
```
For the comment-kind wrappers (`deleteComment`, `editComment`):
```
const fullThingId = thingId.startsWith("t1_") ? thingId : `t1_${thingId}`
```
-/

/-- JavaScript `s.startsWith(pre)`. -/
def jsStartsWith (s pre : String) : Bool :=
  List.isPrefixOf pre.data s.data

/-- Thing-id normalization used by `replyToPost`/`deletePost`/`editPost`/`vote`. -/
def withPrefixPost (thingId : String) : String :=
  if jsStartsWith thingId "t3_" || jsStartsWith thingId "t1_" then thingId
  else "t3_" ++ thingId

/-- Thing-id normalization used by `deleteComment`/`editComment` before they
delegate to `deletePost`/`editPost`. -/
def withPrefixComment (thingId : String) : String :=
  if jsStartsWith thingId "t1_" then thingId
  else "t1_" ++ thingId

/-! ### Safe-mode write guard

```
private safeMode: SafeModeConfig       // {enabled, mode, writeDelayMs, duplicateCheck, maxRecentHashes}
private lastWriteTime: number = 0
private recentContentHashes: Set<string> = new Set()
```
The JS `Set` iterates in insertion order; it is embedded as a duplicate-free
`List String` whose head is the oldest-inserted element.  Wall-clock time is an
explicit `now : Int` (milliseconds); the SHA-256 hex digest is an abstract
parameter `hashHex : String → String` applied, as in `hashContent`, to the
trimmed lowercased content.
-/

structure SafeModeConfig where
  enabled : Bool
  mode : String
  writeDelayMs : Int
  duplicateCheck : Bool
  maxRecentHashes : Nat
deriving Repr, DecidableEq

/-- Mutable guard state of the client: `lastWriteTime` and `recentContentHashes`. -/
structure GuardState where
  lastWriteTime : Int
  recentContentHashes : List String
deriving Repr, DecidableEq

/-- Observable effects of a write operation, in order of occurrence:
`wait ms` is the rate-limit suspension (`setTimeout`), `netCall path` is an
HTTP request issued to the given API path. -/
inductive WriteEvent where
  | wait (ms : Int)
  | netCall (path : String) (thingId : Option String)
deriving Repr, DecidableEq

deriving instance DecidableEq for Except

/-- Errors thrown on the write path before any network call to the target
endpoint. -/
inductive WriteError where
  | writeAccess
  | duplicateContent
deriving Repr, DecidableEq

/-- `enforceWriteRateLimit`:
```
if (!this.safeMode.enabled || this.safeMode.writeDelayMs <= 0) return
const now = Date.now()
const elapsed = now - this.lastWriteTime
if (elapsed < this.safeMode.writeDelayMs) {
  const waitTime = this.safeMode.writeDelayMs - elapsed
  await new Promise((resolve) => setTimeout(resolve, waitTime))
}
this.lastWriteTime = Date.now()
```
Returns the updated `lastWriteTime` and the suspension trace; after a wait of
`waitTime` the second `Date.now()` reads `now + waitTime`. -/
def enforceWriteRateLimit (sm : SafeModeConfig) (lastWriteTime now : Int) :
    Int × List WriteEvent :=
  if !sm.enabled then (lastWriteTime, [])
  else if sm.writeDelayMs ≤ 0 then (lastWriteTime, [])
  else
    let elapsed := now - lastWriteTime
    if elapsed < sm.writeDelayMs then
      (now + (sm.writeDelayMs - elapsed), [.wait (sm.writeDelayMs - elapsed)])
    else (now, [])

/-- JavaScript whitespace trimmed by `String.prototype.trim`: space, tab,
line terminators (9-13), NBSP, BOM (the other Unicode space separators are
omitted as irrelevant to the model). -/
def jsWhitespace (c : Char) : Bool :=
  c.toNat == 32 || (9 ≤ c.toNat && c.toNat ≤ 13) || c.toNat == 160 || c.toNat == 65279

/-- JavaScript `content.trim()`: strip whitespace from both ends. -/
def jsTrim (s : String) : String :=
  String.mk (((s.data.dropWhile jsWhitespace).reverse.dropWhile jsWhitespace).reverse)

/-- ASCII lowercasing of one character (`A-Z ↦ a-z`). -/
def toLowerAscii (c : Char) : Char :=
  if 65 ≤ c.toNat && c.toNat ≤ 90 then Char.ofNat (c.toNat + 32) else c

/-- JavaScript `content.toLowerCase()`, restricted to ASCII case mapping. -/
def jsToLower (s : String) : String :=
  String.mk (s.data.map toLowerAscii)

/-- `hashContent`: SHA-256 hex digest of the trimmed, lowercased content:
`crypto.createHash("sha256").update(content.trim().toLowerCase()).digest("hex")`,
with the digest abstracted as `hashHex`. -/
def hashContent (hashHex : String → String) (content : String) : String :=
  hashHex (jsToLower (jsTrim content))

/-- `checkDuplicateContent`:
```
if (!this.safeMode.enabled || !this.safeMode.duplicateCheck) return
const hash = this.hashContent(content)
if (this.recentContentHashes.has(hash)) throw new Error("Duplicate content detected...")
this.recentContentHashes.add(hash)
if (this.recentContentHashes.size > this.safeMode.maxRecentHashes) {
  const first = this.recentContentHashes.values().next().value
  if (first) this.recentContentHashes.delete(first)
}
```
The `if (first)` guard skips the deletion when the oldest entry is the empty
string (falsy) — impossible for a real hex digest but kept faithfully. -/
def checkDuplicateContent (hashHex : String → String) (sm : SafeModeConfig)
    (hashes : List String) (content : String) : Except WriteError (List String) :=
  if !sm.enabled then .ok hashes
  else if !sm.duplicateCheck then .ok hashes
  else
    let h := hashContent hashHex content
    if hashes.contains h then .error .duplicateContent
    else
      let added := hashes ++ [h]
      if added.length > sm.maxRecentHashes then
        match added.head? with
        | some first => if first = "" then .ok added else .ok (added.erase first)
        | none => .ok added
      else .ok added

/-- Credentials relevant to `validateWriteAccess`; JS truthiness makes the
empty string count as absent. -/
def optTruthy : Option String → Bool
  | none => false
  | some s => s ≠ ""

/-- `validateWriteAccess`: throws unless both `username` and `password` are
set (truthy). -/
def validateWriteAccess (username password : Option String) : Except WriteError Unit :=
  if !optTruthy username || !optTruthy password then .error .writeAccess
  else .ok ()

/-- Outcome of a write operation's local phase: the error (if any), the guard
state after all mutations that happened before the throw, and the effect
trace up to and including the network request(s) it issues. -/
abbrev WriteOutcome := Except WriteError Unit × GuardState × List WriteEvent

/-- `createPost` up to the `/api/submit` request: access validation, then
rate-limit gate, then duplicate check over `title + content`, then the POST. -/
def createPost (hashHex : String → String) (username password : Option String)
    (sm : SafeModeConfig) (st : GuardState) (now : Int)
    (_subreddit title content : String) (_isSelf : Bool) : WriteOutcome :=
  match validateWriteAccess username password with
  | .error e => (.error e, st, [])
  | .ok _ =>
    let gate := enforceWriteRateLimit sm st.lastWriteTime now
    let st1 : GuardState := { st with lastWriteTime := gate.1 }
    match checkDuplicateContent hashHex sm st1.recentContentHashes (title ++ content) with
    | .error e => (.error e, st1, gate.2)
    | .ok hs =>
      (.ok (), { st1 with recentContentHashes := hs }, gate.2 ++ [.netCall "/api/submit" none])

/-- `replyToPost` up to its network request(s): access validation, rate-limit
gate, duplicate check over `content`; then for a `t3_`-normalized target the
`/api/info.json` existence pre-check, then the `/api/comment` POST.
`postExists` is the oracle for the pre-check's answer. -/
def replyToPost (hashHex : String → String) (username password : Option String)
    (sm : SafeModeConfig) (st : GuardState) (now : Int)
    (postId content : String) (postExists : Bool) : WriteOutcome :=
  match validateWriteAccess username password with
  | .error e => (.error e, st, [])
  | .ok _ =>
    let gate := enforceWriteRateLimit sm st.lastWriteTime now
    let st1 : GuardState := { st with lastWriteTime := gate.1 }
    match checkDuplicateContent hashHex sm st1.recentContentHashes content with
    | .error e => (.error e, st1, gate.2)
    | .ok hs =>
      let st2 : GuardState := { st1 with recentContentHashes := hs }
      let fullThingId := withPrefixPost postId
      if jsStartsWith fullThingId "t3_" then
        if !postExists then
          (.error .writeAccess, st2, gate.2 ++ [.netCall "/api/info.json" (some fullThingId)])
        else
          (.ok (), st2,
            gate.2 ++ [.netCall "/api/info.json" (some fullThingId),
                       .netCall "/api/comment" (some fullThingId)])
      else (.ok (), st2, gate.2 ++ [.netCall "/api/comment" (some fullThingId)])

/-- `editPost` up to the `/api/editusertext` request: access validation,
rate-limit gate, duplicate check over `newText`, then the POST. -/
def editPost (hashHex : String → String) (username password : Option String)
    (sm : SafeModeConfig) (st : GuardState) (now : Int)
    (thingId newText : String) : WriteOutcome :=
  match validateWriteAccess username password with
  | .error e => (.error e, st, [])
  | .ok _ =>
    let gate := enforceWriteRateLimit sm st.lastWriteTime now
    let st1 : GuardState := { st with lastWriteTime := gate.1 }
    match checkDuplicateContent hashHex sm st1.recentContentHashes newText with
    | .error e => (.error e, st1, gate.2)
    | .ok hs =>
      (.ok (), { st1 with recentContentHashes := hs },
        gate.2 ++ [.netCall "/api/editusertext" (some (withPrefixPost thingId))])

/-- `deletePost` up to the `/api/del` request: access validation, then the
POST directly — the source performs no safe-mode checks here. -/
def deletePost (_hashHex : String → String) (username password : Option String)
    (_sm : SafeModeConfig) (st : GuardState) (_now : Int)
    (thingId : String) : WriteOutcome :=
  match validateWriteAccess username password with
  | .error e => (.error e, st, [])
  | .ok _ => (.ok (), st, [.netCall "/api/del" (some (withPrefixPost thingId))])

/-- `deleteComment`: prefixes the id with `t1_` (unless already `t1_`-prefixed)
and delegates to `deletePost`. -/
def deleteComment (hashHex : String → String) (username password : Option String)
    (sm : SafeModeConfig) (st : GuardState) (now : Int)
    (thingId : String) : WriteOutcome :=
  deletePost hashHex username password sm st now (withPrefixComment thingId)

/-- `editComment`: prefixes the id with `t1_` (unless already `t1_`-prefixed)
and delegates to `editPost`. -/
def editComment (hashHex : String → String) (username password : Option String)
    (sm : SafeModeConfig) (st : GuardState) (now : Int)
    (thingId newText : String) : WriteOutcome :=
  editPost hashHex username password sm st now (withPrefixComment thingId) newText

/-- `vote` up to the `/api/vote` request: access validation, rate-limit gate
(no duplicate check — there is no content), then the POST. -/
def vote (username password : Option String)
    (sm : SafeModeConfig) (st : GuardState) (now : Int)
    (thingId : String) (_direction : Int) : WriteOutcome :=
  match validateWriteAccess username password with
  | .error e => (.error e, st, [])
  | .ok _ =>
    let gate := enforceWriteRateLimit sm st.lastWriteTime now
    let st1 : GuardState := { st with lastWriteTime := gate.1 }
    (.ok (), st1, gate.2 ++ [.netCall "/api/vote" (some (withPrefixPost thingId))])

/-! ### Token session and request dispatch

```
private accessToken?: string
private tokenExpiry: number = 0
private authenticated: boolean = false
```
`authenticate()` performs the OAuth token exchange unless the stored token is
still unexpired; `makeRequest()` authenticates on demand, issues the request,
and on a 401 with a previously-authenticated session calls `authenticate()`
again and retries exactly once.  Each network interaction is driven by an
explicit oracle: `reply` for the token-exchange endpoint, `resp n` for the
`n`-th request to the API host.
-/

inductive AuthMode where
  | auto
  | authenticated
  | anonymous
deriving Repr, DecidableEq, BEq

structure AuthConfig where
  clientId : String
  clientSecret : String
  userAgent : String
  username : Option String
  password : Option String
  authMode : AuthMode
deriving Repr, DecidableEq

/-- `hasCredentials = !!(clientId && clientSecret)` (JS truthiness: nonempty). -/
def hasCredentials (cfg : AuthConfig) : Bool :=
  cfg.clientId ≠ "" && cfg.clientSecret ≠ ""

/-- Session state mutated by `authenticate`. -/
structure AuthState where
  accessToken : Option String
  tokenExpiry : Int
  authenticated : Bool
deriving Repr, DecidableEq

/-- Answer of the token-exchange endpoint (`response.ok`, status, and the
parsed `{access_token, expires_in}` payload when ok). -/
structure ExchangeReply where
  ok : Bool
  status : Nat
  accessToken : String
  expiresIn : Int
deriving Repr, DecidableEq

/-- A response from the API host. -/
structure Response where
  status : Nat
  body : String
deriving Repr, DecidableEq

/-- Observable network calls of the session/dispatch layer, in order:
`exchangeCall` is a POST to the token endpoint, `requestCall path auth` is a
request to the API host carrying the given `Authorization` header (if any). -/
inductive AuthEvent where
  | exchangeCall
  | requestCall (path : String) (authHeader : Option String)
deriving Repr, DecidableEq

/-- `authenticate()`:
```
if (this.authMode === "anonymous") { this.authenticated = false; return }
if (this.authMode === "authenticated" && !this.hasCredentials) throw ...
if (this.authMode === "auto" && !this.hasCredentials) { this.authenticated = false; return }
const now = Date.now()
if (this.accessToken && now < this.tokenExpiry) return   // early return: no exchange
                                                         // (an empty-string token is falsy)
const response = await fetch(authUrl, ...)
if (!response.ok) throw new Error(`Authentication failed: ...`)
this.accessToken = data.access_token
this.tokenExpiry = now + data.expires_in * 1000
this.authenticated = true
```
The result pairs the outcome (new state, or the thrown message) with the
trace of exchange calls made (the fetch happens before the `ok` check). -/
def authenticate (cfg : AuthConfig) (now : Int) (reply : ExchangeReply)
    (st : AuthState) : Except String AuthState × List AuthEvent :=
  if cfg.authMode = .anonymous then
    (.ok { st with authenticated := false }, [])
  else if cfg.authMode = .authenticated ∧ hasCredentials cfg = false then
    (.error "Authenticated mode requires REDDIT_CLIENT_ID and REDDIT_CLIENT_SECRET", [])
  else if cfg.authMode = .auto ∧ hasCredentials cfg = false then
    (.ok { st with authenticated := false }, [])
  else if optTruthy st.accessToken = true ∧ now < st.tokenExpiry then
    (.ok st, [])
  else if !reply.ok then
    (.error ("Authentication failed: " ++ toString reply.status), [.exchangeCall])
  else
    (.ok { accessToken := some reply.accessToken,
           tokenExpiry := now + reply.expiresIn * 1000,
           authenticated := true }, [.exchangeCall])

/-- `Bearer ${this.accessToken}` — JS interpolates `undefined` when absent. -/
def bearerOf : Option String → String
  | some t => "Bearer " ++ t
  | none => "Bearer undefined"

/-- `makeRequest(path)`:
```
const requiresAuth = this.authMode === "authenticated" || (this.authMode === "auto" && this.hasCredentials)
if (requiresAuth && (Date.now() >= this.tokenExpiry || !this.authenticated)) await this.authenticate()
// headers: User-Agent always; Authorization: Bearer <token> iff requiresAuth && accessToken
// (JS truthiness: no header when the stored token is the empty string)
const response = await fetch(url, ...)
if (response.status === 401 && this.authenticated) {
  await this.authenticate()
  const retryHeaders = { ...headers, Authorization: `Bearer ${this.accessToken}` }
  return fetch(url, { ...options, headers: retryHeaders })
}
return response
```
`reply1`/`reply2` answer the first/second token exchange (if reached), `resp n`
answers the `n`-th request to the API host. -/
def makeRequest (cfg : AuthConfig) (st : AuthState) (now : Int)
    (reply1 reply2 : ExchangeReply) (resp : Nat → Response) (path : String) :
    Except String Response × AuthState × List AuthEvent :=
  let requiresAuth : Bool :=
    decide (cfg.authMode = .authenticated) ||
      (decide (cfg.authMode = .auto) && hasCredentials cfg)
  let step1 : Except String AuthState × List AuthEvent :=
    if requiresAuth = true ∧ (now ≥ st.tokenExpiry ∨ st.authenticated = false) then
      authenticate cfg now reply1 st
    else (.ok st, [])
  match step1 with
  | (.error e, ev) => (.error e, st, ev)
  | (.ok st1, ev1) =>
    let authHeader : Option String :=
      if requiresAuth = true ∧ optTruthy st1.accessToken = true then
        some (bearerOf st1.accessToken)
      else none
    let r1 := resp 0
    let ev2 := ev1 ++ [.requestCall path authHeader]
    if r1.status = 401 ∧ st1.authenticated = true then
      match authenticate cfg now reply2 st1 with
      | (.error e, ev3) => (.error e, st1, ev2 ++ ev3)
      | (.ok st2, ev3) =>
        (.ok (resp 1), st2,
          ev2 ++ ev3 ++ [.requestCall path (some (bearerOf st2.accessToken))])
    else
      (.ok r1, st1, ev2)

/-- Number of requests issued to the API host in a trace. -/
def requestCount (tr : List AuthEvent) : Nat :=
  (tr.filter fun e => match e with | .requestCall _ _ => true | _ => false).length

/-- Number of token-exchange calls in a trace. -/
def exchangeCount (tr : List AuthEvent) : Nat :=
  (tr.filter fun e => match e with | .exchangeCall => true | _ => false).length

/-! ### Comment-tree flattening (`getPostComments`'s inner `parseComments`)

The API's recursive shape (`RedditApiCommentTreeData`): each node has a
wrapper `kind`, the comment fields, and a `replies` field typed
`"" | {data: {children}}` or absent.  The traversal:
```
const parseComments = (commentData, depth = 0) => {
  for (const item of commentData) {
    if (item.kind === "t1" && item.data.body) {
      comments.push({ id, author, body, score, controversiality, subreddit,
        submissionTitle: post.title, createdUtc, edited: !!edited,
        isSubmitter, permalink, depth, parentId: parent_id })
      const { replies } = item.data
      if (replies && typeof replies !== "string" && replies.data?.children) {
        parseComments(replies.data.children, depth + 1)
      }
    }
  }
}
```
-/

/-- The `replies` field: absent/undefined, a string (the API sends `""`), or a
listing with children.  The source recurses only in the listing case
(`replies && typeof replies !== "string" && replies.data?.children`). -/
inductive RepliesField (α : Type) where
  | undef
  | strVal (s : String)
  | listing (children : List α)
deriving Repr

/-- The comment fields of one tree node (`RedditApiCommentTreeData`);
`edited` is embedded after the source's `!!` coercion of `boolean | number`. -/
structure RTreeDataF (α : Type) where
  id : String
  author : String
  body : Option String
  score : Int
  controversiality : Int
  subreddit : String
  createdUtc : Int
  edited : Bool
  isSubmitter : Bool
  permalink : String
  parentId : String
  replies : RepliesField α
deriving Repr

/-- One element of a listing's `children`: the `kind` wrapper plus the data. -/
inductive RChild where
  | mk (kind : String) (data : RTreeDataF RChild)
deriving Repr

def RChild.kind : RChild → String
  | .mk k _ => k

def RChild.data : RChild → RTreeDataF RChild
  | .mk _ d => d

/-- JS truthiness of the optional `body` field (`undefined` and `""` are falsy). -/
def bodyTruthy : Option String → Bool
  | none => false
  | some s => s ≠ ""

/-- The flattened record pushed into `comments`. -/
structure FlatComment where
  id : String
  author : String
  body : String
  score : Int
  controversiality : Int
  subreddit : String
  submissionTitle : String
  createdUtc : Int
  edited : Bool
  isSubmitter : Bool
  permalink : String
  depth : Nat
  parentId : String
deriving Repr, DecidableEq

/-- The record built by `comments.push({...})` for an emitted node. -/
def pushRecord (postTitle : String) (depth : Nat) (d : RTreeDataF RChild) : FlatComment :=
  { id := d.id, author := d.author, body := d.body.getD "", score := d.score,
    controversiality := d.controversiality, subreddit := d.subreddit,
    submissionTitle := postTitle, createdUtc := d.createdUtc, edited := d.edited,
    isSubmitter := d.isSubmitter, permalink := d.permalink, depth := depth,
    parentId := d.parentId }

/-- `parseComments`: the loop body in order — emit the node if it is a `t1`
with a truthy body, then recurse into its replies listing at `depth + 1`,
then continue with the remaining siblings at the same depth. -/
def parseComments (postTitle : String) : List RChild → Nat → List FlatComment
  | [], _ => []
  | .mk kind ⟨i, au, body, sc, co, su, cu, ed, isb, pe, pa, replies⟩ :: rest, depth =>
    (if kind == "t1" && bodyTruthy body then
      pushRecord postTitle depth ⟨i, au, body, sc, co, su, cu, ed, isb, pe, pa, replies⟩ ::
        (match replies with
         | .listing children => parseComments postTitle children (depth + 1)
         | .strVal _ => []
         | .undef => [])
     else []) ++ parseComments postTitle rest depth

/-- Written from the spec's words (§4.6), for comparison with `parseComments`:
"pre-order depth-first traversal starting at depth 0.  For each node: skip
anything that is not a comment kind or has no body (dropped, not emitted as an
empty entry).  Emit a flattened record carrying the original `parentId` as
reported by the API and the traversal `depth`.  Recurse into `replies`
children at `depth + 1` before continuing to the next sibling." -/
def flattenSpec (postTitle : String) : List RChild → Nat → List FlatComment
  | [], _ => []
  | .mk kind ⟨i, au, body, sc, co, su, cu, ed, isb, pe, pa, replies⟩ :: siblings, depth =>
    if kind == "t1" && bodyTruthy body then
      pushRecord postTitle depth ⟨i, au, body, sc, co, su, cu, ed, isb, pe, pa, replies⟩ ::
        ((match replies with
          | .listing children => flattenSpec postTitle children (depth + 1)
          | .strVal _ => []
          | .undef => []) ++ flattenSpec postTitle siblings depth)
    else
      flattenSpec postTitle siblings depth

end RedditClient


namespace RedditClient

/-! ## Theorems

### C1 — path-segment sanitizer -/

theorem wordDotDash_unescaped {c : Char} (h : wordDotDash c = true) :
    uriUnescaped c = true := by
  simp only [wordDotDash, wordChar, Bool.or_eq_true, Bool.and_eq_true, decide_eq_true_eq,
    beq_iff_eq] at h
  simp only [uriUnescaped, Bool.or_eq_true, Bool.and_eq_true, decide_eq_true_eq, beq_iff_eq]
  omega

theorem wordDotDash_not_control {c : Char} (h : wordDotDash c = true) :
    controlChar c = false := by
  simp only [wordDotDash, wordChar, Bool.or_eq_true, Bool.and_eq_true, decide_eq_true_eq,
    beq_iff_eq] at h
  simp only [controlChar, Bool.or_eq_true, Bool.and_eq_true, decide_eq_true_eq,
    Bool.or_eq_false_iff, Bool.and_eq_false_iff, decide_eq_false_iff_not]
  omega

theorem allowlist_chars {s : String} (h : safePathSegmentMatch s = true) :
    ∀ c ∈ s.data, wordDotDash c = true := by
  unfold safePathSegmentMatch at h
  cases hd : s.data with
  | nil => simp [hd] at h
  | cons c rest =>
    rw [hd] at h
    simp only [Bool.and_eq_true, List.all_eq_true] at h
    intro x hx
    rcases List.mem_cons.mp hx with rfl | hx
    · simp [wordDotDash, h.1.1]
    · exact h.1.2 x hx

theorem encode_go_allow {l : List Char} (h : ∀ c ∈ l, uriUnescaped c = true) :
    encodeURIComponent.go l = String.mk l := by
  induction l with
  | nil => rfl
  | cons c cs ih =>
    have hc : uriUnescaped c = true := h c (List.mem_cons_self c cs)
    have ih' := ih fun x hx => h x (List.mem_cons_of_mem c hx)
    simp only [encodeURIComponent.go, encodeChar, hc, if_true, ih']
    rfl

theorem encodeURIComponent_id {s : String} (h : ∀ c ∈ s.data, uriUnescaped c = true) :
    encodeURIComponent s = s := by
  cases s with
  | mk l => exact (encode_go_allow h).trans rfl

theorem sanitize_error_of_no_match (s label : String)
    (hm : safePathSegmentMatch s = false) :
    ∃ m, sanitizePathSegment s label = .error m :=
  ⟨"Invalid " ++ label ++ ": contains disallowed characters", by
    simp [sanitizePathSegment, hm]⟩

/-- C1 (amended): every value containing a path separator (`/`, code 47) or a
control character is rejected by `sanitizePathSegment`, and so is the
traversal segment ".." itself; every value matching the allow-list regex is
accepted and returned as its own percent-encoding, which is the identity on
such values.  (The original claim's "contains `..` anywhere" clause is
refuted by `sanitizePathSegment_dotdot_counterexample`.) -/
theorem sanitizePathSegment_spec (s label : String) :
    (containsChar s (Char.ofNat 47) = true → ∃ m, sanitizePathSegment s label = .error m) ∧
    (s.data.any controlChar = true → ∃ m, sanitizePathSegment s label = .error m) ∧
    (∃ m, sanitizePathSegment ".." label = .error m) ∧
    (safePathSegmentMatch s = true →
      sanitizePathSegment s label = .ok s ∧ encodeURIComponent s = s) := by
  refine ⟨?_, ?_, ?_, ?_⟩
  · intro h
    have hm : safePathSegmentMatch s = false := by
      cases hm : safePathSegmentMatch s with
      | false => rfl
      | true =>
        have hmem : Char.ofNat 47 ∈ s.data := by simpa [containsChar] using h
        have := allowlist_chars hm _ hmem
        simp [wordDotDash, wordChar] at this
    exact sanitize_error_of_no_match s label hm
  · intro h
    obtain ⟨c, hc, hctl⟩ := List.any_eq_true.mp h
    have hm : safePathSegmentMatch s = false := by
      cases hm : safePathSegmentMatch s with
      | false => rfl
      | true =>
        have hw := allowlist_chars hm _ hc
        have := wordDotDash_not_control hw
        rw [this] at hctl
        exact absurd hctl (by simp)
    exact sanitize_error_of_no_match s label hm
  · exact sanitize_error_of_no_match ".." label (by decide)
  · intro hm
    have hall : ∀ c ∈ s.data, uriUnescaped c = true := fun c hc =>
      wordDotDash_unescaped (allowlist_chars hm c hc)
    have hid : encodeURIComponent s = s := encodeURIComponent_id hall
    exact ⟨by simp [sanitizePathSegment, hm, hid], hid⟩

/-- C1 counterexample: the value "a..b" contains ".." yet the sanitizer accepts
it and returns it unchanged — the allow-list only rejects ".." as a whole
segment (its first character is not a word character), not an embedded "..". -/
theorem sanitizePathSegment_dotdot_counterexample :
    containsSub ".." "a..b" = true ∧
      sanitizePathSegment "a..b" "post_id" = Except.ok "a..b" := by
  refine ⟨by decide, ?_⟩
  rfl

theorem sanitizePathSegment_spec_witness :
    (∃ m, sanitizePathSegment "a/b" "subreddit" = .error m) ∧
    (∃ m, sanitizePathSegment "a\tb" "username" = .error m) ∧
    (∃ m, sanitizePathSegment ".." "post_id" = .error m) ∧
    (sanitizePathSegment "Spez_01.x-y" "username" = .ok "Spez_01.x-y" ∧
      encodeURIComponent "Spez_01.x-y" = "Spez_01.x-y") :=
  ⟨(sanitizePathSegment_spec "a/b" "subreddit").1 (by decide),
   (sanitizePathSegment_spec "a\tb" "username").2.1 (by decide),
   (sanitizePathSegment_spec "x" "post_id").2.2.1,
   (sanitizePathSegment_spec "Spez_01.x-y" "username").2.2.2 (by decide)⟩

end RedditClient


namespace RedditClient

/-! ### C4 — thing-id normalization -/

theorem jsStartsWith_append_self (pre id : String) :
    jsStartsWith (pre ++ id) pre = true := by
  simp [jsStartsWith, String.data_append, List.isPrefixOf_iff_prefix]

theorem t1_not_prefix_of_t3 (id : String) :
    jsStartsWith ("t3_" ++ id) "t1_" = false := by
  simp [jsStartsWith, String.data_append, List.isPrefixOf]

/-- Shared concrete safe-mode configuration: enabled, 1000 ms write delay,
duplicate checking on, capacity 10. -/
def smOn : SafeModeConfig :=
  { enabled := true, mode := "standard", writeDelayMs := 1000,
    duplicateCheck := true, maxRecentHashes := 10 }

/-- C4 counterexample: the comment-kind normalization does not return a
`t3_`-prefixed id unchanged — `deleteComment "t3_abc"` sends the
double-prefixed id "t1_t3_abc" to `/api/del`. -/
theorem withPrefix_counterexample :
    withPrefixComment "t3_abc" = "t1_t3_abc" ∧
      (deleteComment (fun s => s) (some "user") (some "pw") smOn ⟨0, []⟩ 0 "t3_abc").2.2 =
        [WriteEvent.netCall "/api/del" (some "t1_t3_abc")] :=
  ⟨rfl, rfl⟩

/-- C4 (amended): the post-kind normalization returns an id with either
existing prefix (`t3_` or `t1_`) unchanged, otherwise prepends exactly one
`t3_`, and is idempotent; the comment-kind normalization returns only
`t1_`-prefixed ids unchanged — a `t3_`-prefixed id receives an additional
`t1_` prefix, producing a double-prefixed id — and otherwise prepends exactly
one `t1_`, idempotently. -/
theorem withPrefix_spec (id : String) :
    withPrefixPost ("t3_" ++ id) = "t3_" ++ id ∧
    withPrefixPost ("t1_" ++ id) = "t1_" ++ id ∧
    withPrefixPost (withPrefixPost id) = withPrefixPost id ∧
    withPrefixComment ("t1_" ++ id) = "t1_" ++ id ∧
    withPrefixComment ("t3_" ++ id) = "t1_" ++ ("t3_" ++ id) ∧
    withPrefixComment (withPrefixComment id) = withPrefixComment id := by
  refine ⟨?_, ?_, ?_, ?_, ?_, ?_⟩
  · simp [withPrefixPost, jsStartsWith_append_self]
  · simp [withPrefixPost, jsStartsWith_append_self]
  · unfold withPrefixPost
    by_cases h : (jsStartsWith id "t3_" || jsStartsWith id "t1_") = true
    · simp [h]
    · simp only [h, if_false, if_neg]
      simp [jsStartsWith_append_self, h]
  · simp [withPrefixComment, jsStartsWith_append_self]
  · simp [withPrefixComment, t1_not_prefix_of_t3]
  · unfold withPrefixComment
    by_cases h : jsStartsWith id "t1_" = true
    · simp [h]
    · simp [h, jsStartsWith_append_self]

end RedditClient


namespace RedditClient

/-! ### C2 — rate-limit gate placement on the write paths -/

/-- The outcome's trace begins with the rate-limit gate's suspension events
and its resulting `lastWriteTime` is the gate's update. -/
def gateFirst (out : WriteOutcome) (sm : SafeModeConfig) (st : GuardState) (now : Int) : Prop :=
  ∃ tail, out.2.2 = (enforceWriteRateLimit sm st.lastWriteTime now).2 ++ tail ∧
    out.2.1.lastWriteTime = (enforceWriteRateLimit sm st.lastWriteTime now).1

/-- C2 counterexample: with safe mode enabled and a 1000 ms delay pending,
the gate would suspend for 1000 ms and set `lastWriteTime`, but `deletePost`
issues `/api/del` with no suspension and leaves the guard state unchanged. -/
theorem deletePost_skips_gate_counterexample :
    enforceWriteRateLimit smOn 0 0 = (1000, [WriteEvent.wait 1000]) ∧
      deletePost (fun s => s) (some "user") (some "pw") smOn ⟨0, []⟩ 0 "abc" =
        (.ok (), ⟨0, []⟩, [WriteEvent.netCall "/api/del" (some "t3_abc")]) :=
  ⟨rfl, rfl⟩

/-- C2 (amended): with write credentials configured, `createPost`,
`replyToPost`, `editPost` and `vote` perform the write-rate-limit gate before
any network call, while `deletePost` and `deleteComment` perform no gate at
all: they issue `/api/del` immediately with the guard state unchanged. -/
theorem write_gate_spec (hashHex : String → String) (u p : Option String)
    (sm : SafeModeConfig) (st : GuardState) (now : Int)
    (sub title content postId thingId text : String) (isSelf pe : Bool) (dir : Int)
    (hu : optTruthy u = true) (hp : optTruthy p = true) :
    gateFirst (createPost hashHex u p sm st now sub title content isSelf) sm st now ∧
    gateFirst (replyToPost hashHex u p sm st now postId content pe) sm st now ∧
    gateFirst (editPost hashHex u p sm st now thingId text) sm st now ∧
    gateFirst (vote u p sm st now thingId dir) sm st now ∧
    deletePost hashHex u p sm st now thingId =
      (.ok (), st, [.netCall "/api/del" (some (withPrefixPost thingId))]) ∧
    deleteComment hashHex u p sm st now thingId =
      (.ok (), st, [.netCall "/api/del" (some (withPrefixPost (withPrefixComment thingId)))]) := by
  have hval : validateWriteAccess u p = .ok () := by
    simp [validateWriteAccess, hu, hp]
  refine ⟨?_, ?_, ?_, ?_, ?_, ?_⟩
  · unfold createPost
    rw [hval]
    cases h : checkDuplicateContent hashHex sm st.recentContentHashes (title ++ content) with
    | error e => exact ⟨[], by simp [h], by simp [h]⟩
    | ok hs => exact ⟨[.netCall "/api/submit" none], by simp [h], by simp [h]⟩
  · unfold replyToPost
    rw [hval]
    cases h : checkDuplicateContent hashHex sm st.recentContentHashes content with
    | error e => exact ⟨[], by simp [h], by simp [h]⟩
    | ok hs =>
      by_cases h3 : jsStartsWith (withPrefixPost postId) "t3_" = true
      · cases hpe : pe with
        | false =>
          exact ⟨[.netCall "/api/info.json" (some (withPrefixPost postId))],
            by simp [h, h3, hpe], by simp [h, h3, hpe]⟩
        | true =>
          exact ⟨[.netCall "/api/info.json" (some (withPrefixPost postId)),
                  .netCall "/api/comment" (some (withPrefixPost postId))],
            by simp [h, h3, hpe], by simp [h, h3, hpe]⟩
      · exact ⟨[.netCall "/api/comment" (some (withPrefixPost postId))],
          by simp [h, h3], by simp [h, h3]⟩
  · unfold editPost
    rw [hval]
    cases h : checkDuplicateContent hashHex sm st.recentContentHashes text with
    | error e => exact ⟨[], by simp [h], by simp [h]⟩
    | ok hs =>
      exact ⟨[.netCall "/api/editusertext" (some (withPrefixPost thingId))],
        by simp [h], by simp [h]⟩
  · unfold vote
    rw [hval]
    exact ⟨[.netCall "/api/vote" (some (withPrefixPost thingId))], by simp, by simp⟩
  · unfold deletePost
    rw [hval]
  · unfold deleteComment deletePost
    rw [hval]

theorem write_gate_spec_witness :
    gateFirst (createPost (fun s => s) (some "u") (some "pw") smOn ⟨0, []⟩ 0 "r" "T" "C" true)
        smOn ⟨0, []⟩ 0 ∧
    gateFirst (replyToPost (fun s => s) (some "u") (some "pw") smOn ⟨0, []⟩ 0 "p1" "C" true)
        smOn ⟨0, []⟩ 0 ∧
    gateFirst (editPost (fun s => s) (some "u") (some "pw") smOn ⟨0, []⟩ 0 "p1" "N")
        smOn ⟨0, []⟩ 0 ∧
    gateFirst (vote (some "u") (some "pw") smOn ⟨0, []⟩ 0 "p1" 1) smOn ⟨0, []⟩ 0 ∧
    deletePost (fun s => s) (some "u") (some "pw") smOn ⟨0, []⟩ 0 "p1" =
      (.ok (), ⟨0, []⟩, [.netCall "/api/del" (some (withPrefixPost "p1"))]) ∧
    deleteComment (fun s => s) (some "u") (some "pw") smOn ⟨0, []⟩ 0 "p1" =
      (.ok (), ⟨0, []⟩,
        [.netCall "/api/del" (some (withPrefixPost (withPrefixComment "p1")))]) :=
  write_gate_spec (fun s => s) (some "u") (some "pw") smOn ⟨0, []⟩ 0 "r" "T" "C" "p1" "p1" "N"
    true true 1 (by decide) (by decide)

end RedditClient


namespace RedditClient

/-! ### C5 — ordering of the duplicate check against the rate-limit wait -/

/-- C5 counterexample: `createPost` of duplicate content with a 1000 ms delay
pending suspends for the full 1000 ms (and updates `lastWriteTime`) before
raising the duplicate-content failure — the wait consumes wall-clock time
before the duplicate short-circuit, not after it. -/
theorem duplicate_after_wait_counterexample :
    createPost (fun s => s) (some "u") (some "pw") smOn ⟨0, ["ab"]⟩ 0 "r" "A" "B" true =
      (.error .duplicateContent, ⟨1000, ["ab"]⟩, [WriteEvent.wait 1000]) := rfl

/-- C5 (amended): a duplicate-content failure on `createPost`, `replyToPost`
or `editPost` short-circuits before any network call — the outcome is the
duplicate error, the hash set is unchanged, and the trace consists exactly of
the rate-limit gate suspension events, with no network call — but it occurs
after the rate-limit wait, not before it. -/
theorem duplicate_short_circuit_spec (hashHex : String → String) (u p : Option String)
    (sm : SafeModeConfig) (st : GuardState) (now : Int)
    (sub title content postId thingId text : String) (isSelf pe : Bool)
    (hu : optTruthy u = true) (hp : optTruthy p = true)
    (hen : sm.enabled = true) (hdc : sm.duplicateCheck = true) :
    (hashContent hashHex (title ++ content) ∈ st.recentContentHashes →
      createPost hashHex u p sm st now sub title content isSelf =
        (.error .duplicateContent,
         ⟨(enforceWriteRateLimit sm st.lastWriteTime now).1, st.recentContentHashes⟩,
         (enforceWriteRateLimit sm st.lastWriteTime now).2)) ∧
    (hashContent hashHex content ∈ st.recentContentHashes →
      replyToPost hashHex u p sm st now postId content pe =
        (.error .duplicateContent,
         ⟨(enforceWriteRateLimit sm st.lastWriteTime now).1, st.recentContentHashes⟩,
         (enforceWriteRateLimit sm st.lastWriteTime now).2)) ∧
    (hashContent hashHex text ∈ st.recentContentHashes →
      editPost hashHex u p sm st now thingId text =
        (.error .duplicateContent,
         ⟨(enforceWriteRateLimit sm st.lastWriteTime now).1, st.recentContentHashes⟩,
         (enforceWriteRateLimit sm st.lastWriteTime now).2)) := by
  have hval : validateWriteAccess u p = .ok () := by
    simp [validateWriteAccess, hu, hp]
  have hdup : ∀ c, hashContent hashHex c ∈ st.recentContentHashes →
      checkDuplicateContent hashHex sm st.recentContentHashes c =
        .error .duplicateContent := by
    intro c hc
    simp [checkDuplicateContent, hen, hdc, hc]
  refine ⟨fun hc => ?_, fun hc => ?_, fun hc => ?_⟩
  · simp [createPost, hval, hdup _ hc]
  · simp [replyToPost, hval, hdup _ hc]
  · simp [editPost, hval, hdup _ hc]

theorem duplicate_short_circuit_spec_witness :
    createPost (fun s => s) (some "u") (some "pw") smOn ⟨0, ["ab", "b", "n"]⟩ 0 "r" "A" "B" true =
      (.error .duplicateContent,
       ⟨(enforceWriteRateLimit smOn 0 0).1, ["ab", "b", "n"]⟩,
       (enforceWriteRateLimit smOn 0 0).2) ∧
    replyToPost (fun s => s) (some "u") (some "pw") smOn ⟨0, ["ab", "b", "n"]⟩ 0 "p1" "B" true =
      (.error .duplicateContent,
       ⟨(enforceWriteRateLimit smOn 0 0).1, ["ab", "b", "n"]⟩,
       (enforceWriteRateLimit smOn 0 0).2) ∧
    editPost (fun s => s) (some "u") (some "pw") smOn ⟨0, ["ab", "b", "n"]⟩ 0 "p1" "N" =
      (.error .duplicateContent,
       ⟨(enforceWriteRateLimit smOn 0 0).1, ["ab", "b", "n"]⟩,
       (enforceWriteRateLimit smOn 0 0).2) := by
  have h := duplicate_short_circuit_spec (fun s => s) (some "u") (some "pw") smOn
    ⟨0, ["ab", "b", "n"]⟩ 0 "r" "A" "B" "p1" "p1" "N" true true
    (by decide) (by decide) (by decide) (by decide)
  exact ⟨h.1 (by decide), h.2.1 (by decide), h.2.2 (by decide)⟩

end RedditClient


namespace RedditClient

/-! ### C7 — strict FIFO eviction of the duplicate-content window -/

/-- Shared concrete safe-mode configuration with `maxRecentHashes = 2`. -/
def smTwo : SafeModeConfig :=
  { enabled := true, mode := "standard", writeDelayMs := 0,
    duplicateCheck := true, maxRecentHashes := 2 }

/-- C7: with capacity 2, after accepting distinct contents A, B, C in order,
A's digest has been FIFO-evicted (resubmitting A succeeds) while C's digest is
still present (resubmitting C fails with the duplicate-content error).  The
hypothesis `hane` reflects the source's `if (first)` guard, which skips the
eviction when the oldest digest is the empty string. -/
theorem fifo_eviction_spec (hashHex : String → String) (sm : SafeModeConfig) (a b c : String)
    (hen : sm.enabled = true) (hdc : sm.duplicateCheck = true) (hmax : sm.maxRecentHashes = 2)
    (hab : hashContent hashHex a ≠ hashContent hashHex b)
    (hac : hashContent hashHex a ≠ hashContent hashHex c)
    (hbc : hashContent hashHex b ≠ hashContent hashHex c)
    (hane : hashContent hashHex a ≠ "") :
    checkDuplicateContent hashHex sm [] a = .ok [hashContent hashHex a] ∧
    checkDuplicateContent hashHex sm [hashContent hashHex a] b =
      .ok [hashContent hashHex a, hashContent hashHex b] ∧
    checkDuplicateContent hashHex sm [hashContent hashHex a, hashContent hashHex b] c =
      .ok [hashContent hashHex b, hashContent hashHex c] ∧
    (∃ hs, checkDuplicateContent hashHex sm
      [hashContent hashHex b, hashContent hashHex c] a = .ok hs) ∧
    checkDuplicateContent hashHex sm [hashContent hashHex b, hashContent hashHex c] c =
      .error .duplicateContent := by
  refine ⟨?_, ?_, ?_, ?_, ?_⟩
  · simp [checkDuplicateContent, hen, hdc, hmax]
  · simp [checkDuplicateContent, hen, hdc, hmax, Ne.symm hab]
  · simp [checkDuplicateContent, hen, hdc, hmax, Ne.symm hac, Ne.symm hbc, hane,
      List.erase_cons_head]
  · by_cases hb0 : hashContent hashHex b = ""
    · exact ⟨[hashContent hashHex b, hashContent hashHex c, hashContent hashHex a],
        by simp [checkDuplicateContent, hen, hdc, hmax, hab, hac, hane, hb0]⟩
    · exact ⟨[hashContent hashHex c, hashContent hashHex a],
        by simp [checkDuplicateContent, hen, hdc, hmax, hab, hac, hane, hb0,
          List.erase_cons_head]⟩
  · simp [checkDuplicateContent, hen, hdc, hmax]

theorem fifo_eviction_spec_witness :
    checkDuplicateContent (fun s => s) smTwo [] "A" = .ok ["a"] ∧
    checkDuplicateContent (fun s => s) smTwo ["a"] "B" = .ok ["a", "b"] ∧
    checkDuplicateContent (fun s => s) smTwo ["a", "b"] "C" = .ok ["b", "c"] ∧
    (∃ hs, checkDuplicateContent (fun s => s) smTwo ["b", "c"] "A" = .ok hs) ∧
    checkDuplicateContent (fun s => s) smTwo ["b", "c"] "C" = .error .duplicateContent :=
  fifo_eviction_spec (fun s => s) smTwo "A" "B" "C" (by decide) (by decide) (by decide)
    (by decide) (by decide) (by decide) (by decide)

/-! ### C8 — the duplicate window never exceeds `maxRecentHashes` -/

/-- A sequence of duplicate-checked writes: an accepted write advances the
hash set, a rejected one leaves it unchanged. -/
def runDuplicateChecks (hashHex : String → String) (sm : SafeModeConfig) :
    List String → List String → List String
  | hashes, [] => hashes
  | hashes, c :: cs =>
    match checkDuplicateContent hashHex sm hashes c with
    | .ok hs => runDuplicateChecks hashHex sm hs cs
    | .error _ => runDuplicateChecks hashHex sm hashes cs

theorem checkDuplicate_preserves_bound (hashHex : String → String) (sm : SafeModeConfig)
    (hashes : List String) (content : String)
    (hne : ∀ s, hashHex s ≠ "") (h0 : "" ∉ hashes)
    (hlen : hashes.length ≤ sm.maxRecentHashes) :
    ∀ hs, checkDuplicateContent hashHex sm hashes content = .ok hs →
      hs.length ≤ sm.maxRecentHashes ∧ "" ∉ hs := by
  intro hs h
  rw [checkDuplicateContent] at h
  cases he : sm.enabled with
  | false =>
    rw [he] at h
    simp only [Bool.not_false, if_true] at h
    cases h
    exact ⟨hlen, h0⟩
  | true =>
    rw [he] at h
    simp only [Bool.not_true, if_false] at h
    cases hd : sm.duplicateCheck with
    | false =>
      rw [hd] at h
      simp only [Bool.not_false, if_true] at h
      cases h
      exact ⟨hlen, h0⟩
    | true =>
      rw [hd] at h
      simp only [Bool.not_true, if_false] at h
      have hkey : hashContent hashHex content ≠ "" := hne _
      by_cases hcon : (hashes.contains (hashContent hashHex content)) = true
      · rw [if_pos hcon] at h
        exact absurd h (by simp)
      · rw [if_neg hcon] at h
        have hnotmem : hashContent hashHex content ∉ hashes := by
          simpa [List.elem_iff] using hcon
        by_cases hover :
            (hashes ++ [hashContent hashHex content]).length > sm.maxRecentHashes
        · rw [if_pos hover] at h
          cases hq : hashes with
          | nil =>
            subst hq
            simp only [List.nil_append, List.head?_cons] at h
            rw [if_neg hkey] at h
            simp only [List.erase_cons_head] at h
            cases h
            exact ⟨Nat.zero_le _, by simp⟩
          | cons x xs =>
            subst hq
            simp only [List.cons_append, List.head?_cons] at h
            have hx : x ≠ "" := fun hx => h0 (hx ▸ List.mem_cons_self x xs)
            rw [if_neg hx] at h
            simp only [List.erase_cons_head] at h
            cases h
            constructor
            · have : xs.length + 1 ≤ sm.maxRecentHashes := by
                simpa using hlen
              simpa using this
            · intro hmem
              rcases List.mem_append.mp hmem with hmem | hmem
              · exact h0 (List.mem_cons_of_mem x hmem)
              · exact hkey (by simpa using (List.mem_singleton.mp hmem).symm)
        · rw [if_neg hover] at h
          cases h
          constructor
          · have : hashes.length + 1 ≤ sm.maxRecentHashes := by
              simp only [List.length_append, List.length_cons, List.length_nil] at hover
              omega
            simpa using this
          · intro hmem
            rcases List.mem_append.mp hmem with hmem | hmem
            · exact h0 hmem
            · exact hkey (by simpa using (List.mem_singleton.mp hmem).symm)

/-- C8: starting from a hash set within the bound (and containing no empty
digest, with a digest function that never produces the empty string — the
source's `if (first)` guard would otherwise skip eviction), the size of
`recentContentHashes` never exceeds `maxRecentHashes` after any sequence of
accepted and rejected duplicate-checked writes. -/
theorem recent_hashes_bound (hashHex : String → String) (sm : SafeModeConfig)
    (contents : List String) (hashes : List String)
    (hne : ∀ s, hashHex s ≠ "") (h0 : "" ∉ hashes)
    (hlen : hashes.length ≤ sm.maxRecentHashes) :
    (runDuplicateChecks hashHex sm hashes contents).length ≤ sm.maxRecentHashes := by
  induction contents generalizing hashes with
  | nil => simpa [runDuplicateChecks] using hlen
  | cons c cs ih =>
    rw [runDuplicateChecks]
    cases h : checkDuplicateContent hashHex sm hashes c with
    | ok hs =>
      obtain ⟨hl, hm⟩ := checkDuplicate_preserves_bound hashHex sm hashes c hne h0 hlen hs h
      exact ih hs hm hl
    | error e => exact ih hashes h0 hlen

theorem recent_hashes_bound_witness :
    (runDuplicateChecks (fun s => "h" ++ s) smTwo [] ["A", "B", "C", "A", "C"]).length ≤
      smTwo.maxRecentHashes :=
  recent_hashes_bound (fun s => "h" ++ s) smTwo ["A", "B", "C", "A", "C"] []
    (fun s h => by
      have hd := congrArg String.data h
      simp [String.data_append] at hd)
    (by simp) (by decide)

end RedditClient


namespace RedditClient

/-! ### C3 / C6 — the single-retry-on-401 policy -/

/-- Shared concrete client configuration with user credentials, `auto` mode. -/
def cfgUser : AuthConfig :=
  { clientId := "cid", clientSecret := "csec", userAgent := "ua",
    username := some "u", password := some "pw", authMode := .auto }

/-- Shared concrete successful token-exchange reply delivering a fresh token. -/
def exFresh : ExchangeReply :=
  { ok := true, status := 200, accessToken := "tok2", expiresIn := 3600 }

/-- Shared concrete dispatcher: 401 on the first request, 200 on the second. -/
def resp401then200 : Nat → Response :=
  fun n => if n = 0 then ⟨401, "unauthorized"⟩ else ⟨200, "payload"⟩

/-- C3 at the failing input: the session is authenticated and the stored
token "tok1" is unexpired (expiry 100000, now 0); the upstream answers 401.
The dispatcher performs ZERO token-exchange calls — `authenticate()` returns
early because the token is unexpired, even though a fresh exchange (which
would deliver "tok2") is available — and retries with the SAME stale
`Authorization: Bearer tok1` header, then surfaces the second response. -/
theorem stale_token_retry_code_bug :
    makeRequest cfgUser ⟨some "tok1", 100000, true⟩ 0 exFresh exFresh
        (fun _ => ⟨401, "unauthorized"⟩) "/api/x" =
      (.ok ⟨401, "unauthorized"⟩, ⟨some "tok1", 100000, true⟩,
       [.requestCall "/api/x" (some "Bearer tok1"),
        .requestCall "/api/x" (some "Bearer tok1")]) ∧
    exchangeCount (makeRequest cfgUser ⟨some "tok1", 100000, true⟩ 0 exFresh exFresh
        (fun _ => ⟨401, "unauthorized"⟩) "/api/x").2.2 = 0 :=
  ⟨rfl, rfl⟩

/-- C6: with a previously-authenticated session holding an unexpired,
nonempty token (an authenticated session stores the exchange's nonempty
`access_token`; the empty string is falsy to the source's truthiness checks),
when the first upstream answer is a 401 the dispatcher issues exactly two
requests and returns the second response unchanged — a 200 yields the 200
payload, a second 401 is surfaced as-is; there is no third request. -/
theorem retry_401_spec (cfg : AuthConfig) (tok : String) (exp now : Int)
    (r1 r2 : ExchangeReply) (resp : Nat → Response) (path : String)
    (htok : tok ≠ "") (hexp : now < exp) (h401 : (resp 0).status = 401)
    (hcred : ¬(cfg.authMode = .authenticated ∧ hasCredentials cfg = false)) :
    (makeRequest cfg ⟨some tok, exp, true⟩ now r1 r2 resp path).1 = .ok (resp 1) ∧
    requestCount (makeRequest cfg ⟨some tok, exp, true⟩ now r1 r2 resp path).2.2 = 2 := by
  have hnotge : ¬(now ≥ exp) := not_le.mpr hexp
  cases hm : cfg.authMode with
  | anonymous =>
    simp [makeRequest, authenticate, hm, hnotge, h401, requestCount]
  | authenticated =>
    cases hc : hasCredentials cfg with
    | false => exact absurd ⟨hm, hc⟩ hcred
    | true =>
      simp [makeRequest, authenticate, optTruthy, hm, hc, htok, hnotge, h401, hexp,
        requestCount]
  | auto =>
    cases hc : hasCredentials cfg with
    | false => simp [makeRequest, authenticate, hm, hc, hnotge, h401, requestCount]
    | true =>
      simp [makeRequest, authenticate, optTruthy, hm, hc, htok, hnotge, h401, hexp,
        requestCount]

theorem retry_401_spec_witness :
    (makeRequest cfgUser ⟨some "tok1", 100000, true⟩ 0 exFresh exFresh
        resp401then200 "/api/x").1 = .ok (resp401then200 1) ∧
    requestCount (makeRequest cfgUser ⟨some "tok1", 100000, true⟩ 0 exFresh exFresh
        resp401then200 "/api/x").2.2 = 2 :=
  retry_401_spec cfgUser "tok1" 100000 0 exFresh exFresh resp401then200 "/api/x"
    (by decide) (by decide) (by decide) (by decide)

end RedditClient


namespace RedditClient

/-! ### C9 / C10 — comment-tree flattening -/

theorem parse_eq_flatten (postTitle : String) (nodes : List RChild) (depth : Nat) :
    parseComments postTitle nodes depth = flattenSpec postTitle nodes depth := by
  induction nodes, depth using parseComments.induct postTitle with
  | case1 d => simp [parseComments, flattenSpec]
  | case2 kind idf auf bodyf scoref controf subf cutcf editedf isSubf permaf parf repf rest
      depth hrec ihRest =>
    rw [parseComments.eq_def, flattenSpec.eq_def]
    by_cases hcond : (kind == "t1" && bodyTruthy bodyf) = true
    · simp only [hcond, if_true]
      cases repf with
      | listing children =>
        have hrec2 : parseComments postTitle children (depth + 1) =
            flattenSpec postTitle children (depth + 1) := hrec
        simp [hrec2, ihRest]
      | undef => simp [ihRest]
      | strVal s => simp [ihRest]
    · simp only [hcond, if_false, ihRest]
      simp

/-- A well-formed nested reply (child of `exampleReply2`). -/
def exampleNested : RChild :=
  .mk "t1" ⟨"n1", "u3", some "nested reply", 1, 0, "sub", 12, false, false,
    "/p/n1", "t1_r2", .undef⟩

/-- First direct reply of the root comment (empty-string `replies`). -/
def exampleReply1 : RChild :=
  .mk "t1" ⟨"r1", "u1", some "first reply", 1, 0, "sub", 10, false, false,
    "/p/r1", "t1_root", .strVal ""⟩

/-- Second direct reply of the root comment, carrying the nested reply. -/
def exampleReply2 : RChild :=
  .mk "t1" ⟨"r2", "u2", some "second reply", 2, 0, "sub", 11, false, false,
    "/p/r2", "t1_root", .listing [exampleNested]⟩

/-- A well-formed comment sitting below a removed node. -/
def exampleOrphan : RChild :=
  .mk "t1" ⟨"o1", "u4", some "orphan reply", 3, 0, "sub", 14, false, false,
    "/p/o1", "t1_x1", .undef⟩

/-- A removed/bodyless placeholder that still has a well-formed child. -/
def exampleRemoved : RChild :=
  .mk "t1" ⟨"x1", "[deleted]", none, 0, 0, "sub", 13, false, false,
    "/p/x1", "t1_root", .listing [exampleOrphan]⟩

/-- The root comment with three direct replies (the third is removed). -/
def exampleRoot : RChild :=
  .mk "t1" ⟨"root", "u0", some "root body", 5, 0, "sub", 9, false, false,
    "/p/root", "t3_post", .listing [exampleReply1, exampleReply2, exampleRemoved]⟩

/-- C9: the flattening equals the spec's pre-order depth-first traversal on
every input — children at `depth + 1` immediately after their parent and
before the next sibling, nodes of the wrong kind or without a body dropped
entirely, each record carrying the API-reported `parentId` — and on the
concrete example tree it produces exactly the pre-order sequence with the
removed node (and its subtree) absent. -/
theorem parseComments_preorder_spec :
    (∀ (postTitle : String) (nodes : List RChild) (depth : Nat),
        parseComments postTitle nodes depth = flattenSpec postTitle nodes depth) ∧
    parseComments "T" [exampleRoot] 0 =
      [⟨"root", "u0", "root body", 5, 0, "sub", "T", 9, false, false, "/p/root", 0, "t3_post"⟩,
       ⟨"r1", "u1", "first reply", 1, 0, "sub", "T", 10, false, false, "/p/r1", 1, "t1_root"⟩,
       ⟨"r2", "u2", "second reply", 2, 0, "sub", "T", 11, false, false, "/p/r2", 1, "t1_root"⟩,
       ⟨"n1", "u3", "nested reply", 1, 0, "sub", "T", 12, false, false, "/p/n1", 2, "t1_r2"⟩] := by
  refine ⟨parse_eq_flatten, ?_⟩
  simp [parseComments, exampleRoot, exampleReply1, exampleReply2, exampleNested,
    exampleRemoved, exampleOrphan, pushRecord, bodyTruthy]

/-- C10: a node skipped by the flattening (wrong kind or missing/empty body)
contributes nothing at all: its entire subtree, including well-formed
descendants, is absent from the output. -/
theorem skipped_subtree_omitted (postTitle : String) (n : RChild) (rest : List RChild)
    (depth : Nat) (hskip : (n.kind == "t1" && bodyTruthy n.data.body) = false) :
    parseComments postTitle (n :: rest) depth = parseComments postTitle rest depth := by
  obtain ⟨kind, d⟩ := n
  obtain ⟨i, au, body, sc, co, su, cu, ed, isb, pe, pa, rep⟩ := d
  simp only [RChild.kind, RChild.data] at hskip
  rw [parseComments.eq_def]
  simp [hskip]

theorem skipped_subtree_omitted_witness :
    parseComments "T" [exampleRemoved] 0 = [] :=
  (skipped_subtree_omitted "T" exampleRemoved [] 0
      (by simp [exampleRemoved, RChild.kind, RChild.data, bodyTruthy])).trans
    (by simp [parseComments])

end RedditClient
